import Mathlib

/-!
Shallow embedding of the Datathon-2026 business dashboard's deterministic
subsystems: the role resolver, the Jira sync reconciler (route variant in
`routes/jira.js` and script variant in `create_jira_from_test_tasks.js`),
the finance aggregations (`routes/finance.js`), the smart-allocate
workload transform (`routes/smartAllocate.js`) and the HR retention
analysis (`routes/hr.js`).

Numbers are modelled as `ℚ` (JS numbers used here stay within exactly
representable ranges for the properties considered), dates as integer day
numbers, nullable fields as `Option`, and the external Jira API as an
oracle mapping a task id to a success (issue key/id) or failure outcome.
-/

/-- JavaScript truthiness of an optional string field: `undefined`/`null`
and the empty string are falsy. -/
def jsTruthyStr : Option String → Bool
  | none => false
  | some s => !(s == "")

/-- JavaScript `x || d` for an optional numeric field: `undefined`, `null`
and `0` all fall back to the default `d`. -/
def jsOrQ : Option ℚ → ℚ → ℚ
  | none, d => d
  | some v, d => if v = 0 then d else v

/-- A member of the hard-coded team roster. -/
structure TeamMember where
  name : String
  accountId : String
  role : String
deriving DecidableEq, Repr

/-- The `TEAM` roster from `create_jira_from_test_tasks.js`. -/
def TEAM : List TeamMember :=
  [⟨"Aryan", "712020:f4133ad3-9b22-491e-8260-37d3ce9dcf04", "frontend"⟩,
   ⟨"Ritwik", "712020:88eb9ecb-d9f0-40ee-a5d0-9cbe35c6ac8f", "backend"⟩,
   ⟨"Mohak", "712020:27f806c7-3623-4153-bb5b-0f60bb121dec", "devops"⟩,
   ⟨"Manu", "712020:a0876b3e-cc7b-403e-8aac-a8929a1c080e", "qa"⟩]

/-- The `TEAM` roster from `routes/jira.js` (same people, AWS-flavoured role labels). -/
def teamRoute : List TeamMember :=
  [⟨"Aryan", "712020:f4133ad3-9b22-491e-8260-37d3ce9dcf04", "AWS Solutions Architect"⟩,
   ⟨"Ritwik", "712020:88eb9ecb-d9f0-40ee-a5d0-9cbe35c6ac8f", "AWS Backend Developer"⟩,
   ⟨"Mohak", "712020:27f806c7-3623-4153-bb5b-0f60bb121dec", "AWS DevOps Engineer"⟩,
   ⟨"Manu", "712020:a0876b3e-cc7b-403e-8aac-a8929a1c080e", "AWS Cloud Engineer"⟩]

/-- The static `roleMap` object of `mapRoleToTeamMember` in
`create_jira_from_test_tasks.js`, as an association list in source order. -/
def roleMapScript : List (String × String) :=
  [("frontend", "Aryan"),
   ("senior frontend developer", "Aryan"),
   ("frontend developer", "Aryan"),
   ("backend", "Ritwik"),
   ("backend engineer", "Ritwik"),
   ("backend developer", "Ritwik"),
   ("devops", "Mohak"),
   ("devops engineer", "Mohak"),
   ("qa", "Manu"),
   ("qa engineer", "Manu"),
   ("tester", "Manu"),
   ("marketing manager", "Aryan"),
   ("social media specialist", "Ritwik"),
   ("digital marketer", "Mohak"),
   ("senior editor", "Manu")]

/-- The static `roleMap` object of `mapRoleToTeamMember` in `routes/jira.js`. -/
def roleMapRoute : List (String × String) :=
  [("aws solutions architect", "Aryan"),
   ("aws architect", "Aryan"),
   ("solutions architect", "Aryan"),
   ("cloud architect", "Aryan"),
   ("aws backend developer", "Ritwik"),
   ("backend developer", "Ritwik"),
   ("backend engineer", "Ritwik"),
   ("aws developer", "Ritwik"),
   ("backend", "Ritwik"),
   ("aws devops engineer", "Mohak"),
   ("devops engineer", "Mohak"),
   ("devops", "Mohak"),
   ("cloud devops", "Mohak"),
   ("aws cloud engineer", "Manu"),
   ("cloud engineer", "Manu"),
   ("infrastructure engineer", "Manu"),
   ("sre", "Manu"),
   ("aws", "Aryan"),
   ("frontend", "Aryan"),
   ("qa", "Manu")]

/-- Normalisation `roleRequired?.toLowerCase() || ''`: `null`/`undefined` (and the empty
string) normalise to the empty string, everything else to its lowercase. -/
def normalizeRole (roleRequired : Option String) : String :=
  (roleRequired.map String.toLower).getD ""

/-- The `mapRoleToTeamMember` function from `create_jira_from_test_tasks.js`.
`rand` models `Math.floor(Math.random() * TEAM.length)`, which always lies
in `0..3`.  The result is an `Option` because `TEAM.find` can in principle
return `undefined` when the lookup table names someone absent from the
roster (it never does, as proved below). -/
def mapRoleToTeamMember (roleRequired : Option String) (rand : Fin 4) :
    Option TeamMember :=
  let normalizedRole := normalizeRole roleRequired
  match List.lookup normalizedRole roleMapScript with
  | some memberName => TEAM.find? (fun m => m.name == memberName)
  | none => some (TEAM.get ⟨rand.val, lt_of_lt_of_le rand.isLt (by decide)⟩)

/-- The `mapRoleToTeamMember` function from `routes/jira.js` (route variant). -/
def mapRoleToTeamMemberRoute (roleRequired : Option String) (rand : Fin 4) :
    Option TeamMember :=
  let normalizedRole := normalizeRole roleRequired
  match List.lookup normalizedRole roleMapRoute with
  | some memberName => teamRoute.find? (fun m => m.name == memberName)
  | none => some (teamRoute.get ⟨rand.val, lt_of_lt_of_le rand.isLt (by decide)⟩)

theorem lookup_snd_mem : ∀ (l : List (String × String)) (k v : String),
    List.lookup k l = some v → v ∈ l.map Prod.snd := by
  intro l
  induction l with
  | nil => intro k v h; simp [List.lookup] at h
  | cons a t ih =>
    intro k v h
    obtain ⟨k1, v1⟩ := a
    rw [List.lookup_cons] at h
    cases hb : (k == k1) with
    | true =>
      rw [hb] at h
      simp only [Option.some.injEq] at h
      simp [h]
    | false =>
      rw [hb] at h
      exact List.mem_cons_of_mem _ (ih k v h)

/-- C3: for every role-requirement string whose lowercasing is a key of the
static role lookup table, `mapRoleToTeamMember` (both the script and the
route variant) returns exactly the configured team member; for every other
input, including `null`/`undefined`/empty, it returns some member of the
non-empty roster, never `null`/`undefined`. -/
theorem mapRoleToTeamMember_total_exact (r : Option String) (rand : Fin 4) :
    (∃ m, mapRoleToTeamMember r rand = some m ∧ m ∈ TEAM) ∧
    (∀ nm, List.lookup (normalizeRole r) roleMapScript = some nm →
      mapRoleToTeamMember r rand = TEAM.find? (fun m => m.name == nm) ∧
      (TEAM.find? (fun m => m.name == nm)).isSome = true) ∧
    (∃ m, mapRoleToTeamMemberRoute r rand = some m ∧ m ∈ teamRoute) ∧
    (∀ nm, List.lookup (normalizeRole r) roleMapRoute = some nm →
      mapRoleToTeamMemberRoute r rand = teamRoute.find? (fun m => m.name == nm) ∧
      (teamRoute.find? (fun m => m.name == nm)).isSome = true) ∧
    TEAM ≠ [] ∧ teamRoute ≠ [] := by
  refine ⟨?_, ?_, ?_, ?_, by decide, by decide⟩
  · cases h : List.lookup (normalizeRole r) roleMapScript with
    | none =>
      refine ⟨TEAM.get ⟨rand.val, lt_of_lt_of_le rand.isLt (by decide)⟩, ?_, List.get_mem _ _ _⟩
      simp [mapRoleToTeamMember, h]
    | some nm =>
      have hmem : nm ∈ roleMapScript.map Prod.snd := lookup_snd_mem _ _ _ h
      have hfind : (TEAM.find? (fun m => m.name == nm)).isSome = true := by
        simp only [roleMapScript, List.map_cons, List.map_nil, List.mem_cons,
          List.not_mem_nil, or_false] at hmem
        rcases hmem with h1 | h1 | h1 | h1 | h1 | h1 | h1 | h1 | h1 | h1 | h1 | h1 | h1 | h1 | h1 <;>
          subst h1 <;> decide
      obtain ⟨m, hm⟩ := Option.isSome_iff_exists.mp hfind
      refine ⟨m, ?_, List.mem_of_find?_eq_some hm⟩
      simp [mapRoleToTeamMember, h, hm]
  · intro nm h
    have hmem : nm ∈ roleMapScript.map Prod.snd := lookup_snd_mem _ _ _ h
    have hfind : (TEAM.find? (fun m => m.name == nm)).isSome = true := by
      simp only [roleMapScript, List.map_cons, List.map_nil, List.mem_cons,
        List.not_mem_nil, or_false] at hmem
      rcases hmem with h1 | h1 | h1 | h1 | h1 | h1 | h1 | h1 | h1 | h1 | h1 | h1 | h1 | h1 | h1 <;>
        subst h1 <;> decide
    exact ⟨by simp [mapRoleToTeamMember, h], hfind⟩
  · cases h : List.lookup (normalizeRole r) roleMapRoute with
    | none =>
      refine ⟨teamRoute.get ⟨rand.val, lt_of_lt_of_le rand.isLt (by decide)⟩, ?_, List.get_mem _ _ _⟩
      simp [mapRoleToTeamMemberRoute, h]
    | some nm =>
      have hmem : nm ∈ roleMapRoute.map Prod.snd := lookup_snd_mem _ _ _ h
      have hfind : (teamRoute.find? (fun m => m.name == nm)).isSome = true := by
        simp only [roleMapRoute, List.map_cons, List.map_nil, List.mem_cons,
          List.not_mem_nil, or_false] at hmem
        rcases hmem with h1 | h1 | h1 | h1 | h1 | h1 | h1 | h1 | h1 | h1 |
          h1 | h1 | h1 | h1 | h1 | h1 | h1 | h1 | h1 | h1 <;>
          subst h1 <;> decide
      obtain ⟨m, hm⟩ := Option.isSome_iff_exists.mp hfind
      refine ⟨m, ?_, List.mem_of_find?_eq_some hm⟩
      simp [mapRoleToTeamMemberRoute, h, hm]
  · intro nm h
    have hmem : nm ∈ roleMapRoute.map Prod.snd := lookup_snd_mem _ _ _ h
    have hfind : (teamRoute.find? (fun m => m.name == nm)).isSome = true := by
      simp only [roleMapRoute, List.map_cons, List.map_nil, List.mem_cons,
        List.not_mem_nil, or_false] at hmem
      rcases hmem with h1 | h1 | h1 | h1 | h1 | h1 | h1 | h1 | h1 | h1 |
        h1 | h1 | h1 | h1 | h1 | h1 | h1 | h1 | h1 | h1 <;>
        subst h1 <;> decide
    exact ⟨by simp [mapRoleToTeamMemberRoute, h], hfind⟩

/-- Witness for C3 at a concrete table key and a concrete unknown role. -/
theorem mapRoleToTeamMember_total_exact_witness :
    (∃ m, mapRoleToTeamMember (some "Backend") ⟨0, by decide⟩ = some m ∧ m ∈ TEAM) ∧
    (∃ m, mapRoleToTeamMember none ⟨2, by decide⟩ = some m ∧ m ∈ TEAM) :=
  ⟨(mapRoleToTeamMember_total_exact (some "Backend") ⟨0, by decide⟩).1,
   (mapRoleToTeamMember_total_exact none ⟨2, by decide⟩).1⟩

/-- A work item (`Task` document) as used by the sync reconciler.
`id` models the MongoDB `_id`. -/
structure TaskDoc where
  id : ℕ
  task_id : String
  title : String
  role_required : Option String
  priority : Option String
  status : String
  deadline : Option ℤ
  estimated_hours : Option ℚ
  allocated_to : Option String
  synced_to_jira : Option Bool
  jira_issue_key : Option String
  jira_issue_id : Option String
  updatedAt : ℤ
deriving DecidableEq, Repr

/-- Outcome of one external `POST /rest/api/3/issue` call: either the created
issue's key and id, or a thrown error message. -/
inductive JiraOutcome where
  | success (key : String) (kid : String)
  | failure (msg : String)
deriving DecidableEq, Repr

def JiraOutcome.isSuccess : JiraOutcome → Bool
  | .success _ _ => true
  | .failure _ => false

/-- One entry of `results.tickets` in `POST /api/jira/sync-tasks`. -/
structure SyncTicket where
  task_id : String
  title : String
  assignee : Option String
  jira_key : Option String
  jira_id : Option String
  error : Option String
deriving DecidableEq, Repr

/-- Accumulated state of the sync-tasks loop: the document store plus the
`results` counters.  `calls` additionally records, in order, the ids of the
tasks for which an external issue-creation call was attempted (our
observation of network traffic; not a field of the JS `results`). -/
structure SyncState where
  store : List TaskDoc
  created : ℕ
  skipped : ℕ
  failed : ℕ
  tickets : List SyncTicket
  calls : List ℕ
deriving Repr

/-- The Mongo selection `{ status: 'pending', $or: [{synced_to_jira: false},
{synced_to_jira: {$exists: false}}] }`. -/
def pendingUnsynced (t : TaskDoc) : Bool :=
  t.status == "pending" && !(t.synced_to_jira == some true)

/-- Ascending Mongo sort on a nullable deadline: missing values first. -/
def deadlineLe : Option ℤ → Option ℤ → Bool
  | none, _ => true
  | some _, none => false
  | some x, some y => decide (x ≤ y)

/-- The selection `Task.find(...).sort({ deadline: 1 })`. -/
def selectedTasks (store : List TaskDoc) : List TaskDoc :=
  (store.filter pendingUnsynced).mergeSort (fun a b => deadlineLe a.deadline b.deadline)

/-- The in-loop double check `task.synced_to_jira && task.jira_issue_key`. -/
def skipCheck (t : TaskDoc) : Bool :=
  (t.synced_to_jira == some true) && jsTruthyStr t.jira_issue_key

/-- The `$set` of `Task.findByIdAndUpdate` after a successful creation. -/
def allocatedUpdate (t : TaskDoc) (key kid : String) : TaskDoc :=
  { t with jira_issue_key := some key, jira_issue_id := some kid,
           synced_to_jira := some true, status := "allocated" }

/-- The update `Task.findByIdAndUpdate(task._id, ...)`: rewrite the store, updating the
document(s) carrying the given `_id`. -/
def updateTaskById (store : List TaskDoc) (tid : ℕ) (key kid : String) : List TaskDoc :=
  store.map (fun u => if u.id = tid then allocatedUpdate u key kid else u)

/-- The error entry pushed onto `results.tickets` when the create call for a
task throws. -/
def errorTicket (rand : ℕ → Fin 4) (t : TaskDoc) (msg : String) : SyncTicket :=
  { task_id := t.task_id, title := t.title,
    assignee := (mapRoleToTeamMemberRoute t.role_required (rand t.id)).map TeamMember.name,
    jira_key := none, jira_id := none, error := some msg }

/-- One iteration of the `for (const task of tasks)` loop in
`POST /api/jira/sync-tasks`. -/
def processTask (oracle : ℕ → JiraOutcome) (rand : ℕ → Fin 4)
    (acc : SyncState) (t : TaskDoc) : SyncState :=
  if skipCheck t then { acc with skipped := acc.skipped + 1 }
  else
    let assignee := (mapRoleToTeamMemberRoute t.role_required (rand t.id)).map TeamMember.name
    match oracle t.id with
    | .success key kid =>
        { store := updateTaskById acc.store t.id key kid,
          created := acc.created + 1, skipped := acc.skipped, failed := acc.failed,
          tickets := acc.tickets ++
            [{ task_id := t.task_id, title := t.title, assignee := assignee,
               jira_key := some key, jira_id := some kid, error := none }],
          calls := acc.calls ++ [t.id] }
    | .failure msg =>
        { store := acc.store, created := acc.created, skipped := acc.skipped,
          failed := acc.failed + 1,
          tickets := acc.tickets ++ [errorTicket rand t msg],
          calls := acc.calls ++ [t.id] }

/-- The whole `POST /api/jira/sync-tasks` handler body (after config checks):
select the pending unsynced tasks sorted by deadline and run the per-task
loop over the snapshot, threading the store and counters. -/
def syncTasks (oracle : ℕ → JiraOutcome) (rand : ℕ → Fin 4)
    (store : List TaskDoc) : SyncState :=
  (selectedTasks store).foldl (processTask oracle rand) ⟨store, 0, 0, 0, [], []⟩

/-- The `$set` of `tasksCollection.updateOne` in
`create_jira_from_test_tasks.js` (also stamps `updated_at`). -/
def scriptUpdate (t : TaskDoc) (key kid : String) (now : ℤ) : TaskDoc :=
  { t with jira_issue_key := some key, jira_issue_id := some kid,
           synced_to_jira := some true, status := "allocated", updatedAt := now }

/-- Accumulated state of the script's loop over all tasks. -/
structure ScriptState where
  store : List TaskDoc
  created : ℕ
  skipped : ℕ
  failed : ℕ
  calls : List ℕ
deriving Repr

/-- One iteration of the `for (const task of tasks)` loop in
`create_jira_from_test_tasks.js`: skip when the task already carries a
truthy `jira_issue_key`, otherwise attempt the external create. -/
def scriptStep (oracle : ℕ → JiraOutcome) (now : ℤ)
    (acc : ScriptState) (t : TaskDoc) : ScriptState :=
  if jsTruthyStr t.jira_issue_key then { acc with skipped := acc.skipped + 1 }
  else match oracle t.id with
    | .success key kid =>
        { acc with
          store := acc.store.map (fun u => if u.id = t.id then scriptUpdate u key kid now else u),
          created := acc.created + 1, calls := acc.calls ++ [t.id] }
    | .failure _ =>
        { acc with failed := acc.failed + 1, calls := acc.calls ++ [t.id] }

/-- The `main` function of `create_jira_from_test_tasks.js` (after connecting): fetch all
tasks and loop. -/
def scriptRun (oracle : ℕ → JiraOutcome) (now : ℤ) (tasks : List TaskDoc) : ScriptState :=
  tasks.foldl (scriptStep oracle now) ⟨tasks, 0, 0, 0, []⟩

theorem foldl_processTask_clears_pending (oracle : ℕ → JiraOutcome) (rand : ℕ → Fin 4) :
    ∀ (l : List TaskDoc) (acc : SyncState),
      (∀ a ∈ l, pendingUnsynced a = true) →
      (∀ a ∈ l, (oracle a.id).isSuccess = true) →
      (∀ t ∈ acc.store, pendingUnsynced t = true → t.id ∈ l.map TaskDoc.id) →
      ∀ t ∈ (l.foldl (processTask oracle rand) acc).store, pendingUnsynced t = false := by
  intro l
  induction l with
  | nil =>
    intro acc _ _ hinv t ht
    cases hpu : pendingUnsynced t with
    | false => rfl
    | true => exact absurd (hinv t ht hpu) (by simp)
  | cons a rest ih =>
    intro acc hall hsucc hinv t ht
    rw [List.foldl_cons] at ht
    refine ih (processTask oracle rand acc a)
      (fun x hx => hall x (List.mem_cons_of_mem _ hx))
      (fun x hx => hsucc x (List.mem_cons_of_mem _ hx)) ?_ t ht
    intro u hu hpu
    have hpa : pendingUnsynced a = true := hall a (List.mem_cons_self _ _)
    have hskip : skipCheck a = false := by
      simp only [pendingUnsynced, Bool.and_eq_true, Bool.not_eq_true'] at hpa
      simp [skipCheck, hpa.2]
    have hsa : (oracle a.id).isSuccess = true := hsucc a (List.mem_cons_self _ _)
    match hora : oracle a.id with
    | .failure m => rw [hora] at hsa; simp [JiraOutcome.isSuccess] at hsa
    | .success key kid =>
      rw [processTask, if_neg (by simp [hskip]), hora] at hu
      simp only [updateTaskById, List.mem_map] at hu
      obtain ⟨v, hv, hveq⟩ := hu
      by_cases hid : v.id = a.id
      · rw [if_pos hid] at hveq
        rw [← hveq] at hpu
        simp [pendingUnsynced, allocatedUpdate] at hpu
      · rw [if_neg hid] at hveq
        subst hveq
        have := hinv v hv hpu
        simp only [List.map_cons, List.mem_cons] at this
        rcases this with h | h
        · exact absurd h hid
        · exact h

/-- C1: running `POST /api/jira/sync-tasks` twice in succession, where the
first run's external create succeeded for every selected item, makes zero
external calls on the second run, reports `created = 0` there, and leaves
the store untouched: every item created by the first run now has
`synced_to_jira = true`, a `jira_issue_key`, and status `allocated`, so the
second run's pending-unsynced selection is empty. -/
theorem syncTasks_idempotent (oracle oracle2 : ℕ → JiraOutcome)
    (rand rand2 : ℕ → Fin 4) (store : List TaskDoc)
    (hsucc : ∀ t ∈ store, pendingUnsynced t = true → (oracle t.id).isSuccess = true) :
    (syncTasks oracle2 rand2 (syncTasks oracle rand store).store).calls = [] ∧
    (syncTasks oracle2 rand2 (syncTasks oracle rand store).store).created = 0 ∧
    (syncTasks oracle2 rand2 (syncTasks oracle rand store).store).store =
      (syncTasks oracle rand store).store := by
  have hclear : ∀ t ∈ (syncTasks oracle rand store).store, pendingUnsynced t = false := by
    refine foldl_processTask_clears_pending oracle rand (selectedTasks store) _ ?_ ?_ ?_
    · intro a ha
      have : a ∈ store.filter pendingUnsynced := by
        simpa [selectedTasks] using (List.mem_mergeSort).mp ha
      exact (List.mem_filter.mp this).2
    · intro a ha
      have : a ∈ store.filter pendingUnsynced := by
        simpa [selectedTasks] using (List.mem_mergeSort).mp ha
      exact hsucc a (List.mem_filter.mp this).1 (List.mem_filter.mp this).2
    · intro t ht hpu
      have : t ∈ selectedTasks store := by
        simp only [selectedTasks]
        exact (List.mem_mergeSort).mpr (List.mem_filter.mpr ⟨ht, hpu⟩)
      exact List.mem_map_of_mem TaskDoc.id this
  have hfilter : (syncTasks oracle rand store).store.filter pendingUnsynced = [] := by
    rw [List.filter_eq_nil_iff]
    intro t ht
    simp [hclear t ht]
  have hsel : selectedTasks (syncTasks oracle rand store).store = [] := by
    simp [selectedTasks, hfilter]
  set S := (syncTasks oracle rand store).store with hS
  have h2 : syncTasks oracle2 rand2 S = ⟨S, 0, 0, 0, [], []⟩ := by
    unfold syncTasks
    rw [hsel]
    rfl
  refine ⟨by rw [h2], by rw [h2], by rw [h2]⟩

/-- Witness store for the reconciler claims: one pending unsynced task. -/
def sampleTask : TaskDoc :=
  { id := 1, task_id := "T-1", title := "Build API", role_required := some "backend",
    priority := some "high", status := "pending", deadline := some 5,
    estimated_hours := some 8, allocated_to := none, synced_to_jira := some false,
    jira_issue_key := none, jira_issue_id := none, updatedAt := 0 }

/-- Witness for C1: a concrete one-task store, an all-success first run. -/
theorem syncTasks_idempotent_witness :
    (syncTasks (fun _ => JiraOutcome.success "SCRUM-9" "10009") (fun _ => ⟨0, by decide⟩)
      ((syncTasks (fun _ => JiraOutcome.success "SCRUM-9" "10009") (fun _ => ⟨0, by decide⟩)
        [sampleTask]).store)).calls = [] ∧
    (syncTasks (fun _ => JiraOutcome.success "SCRUM-9" "10009") (fun _ => ⟨0, by decide⟩)
      ((syncTasks (fun _ => JiraOutcome.success "SCRUM-9" "10009") (fun _ => ⟨0, by decide⟩)
        [sampleTask]).store)).created = 0 ∧
    (syncTasks (fun _ => JiraOutcome.success "SCRUM-9" "10009") (fun _ => ⟨0, by decide⟩)
      ((syncTasks (fun _ => JiraOutcome.success "SCRUM-9" "10009") (fun _ => ⟨0, by decide⟩)
        [sampleTask]).store)).store =
      (syncTasks (fun _ => JiraOutcome.success "SCRUM-9" "10009") (fun _ => ⟨0, by decide⟩)
        [sampleTask]).store :=
  syncTasks_idempotent _ _ _ _ [sampleTask] (by intro t ht hp; rfl)

theorem foldl_processTask_counts (oracle : ℕ → JiraOutcome) (rand : ℕ → Fin 4) :
    ∀ (l : List TaskDoc) (acc : SyncState),
      (l.foldl (processTask oracle rand) acc).created =
        acc.created + l.countP (fun a => !skipCheck a && (oracle a.id).isSuccess) ∧
      (l.foldl (processTask oracle rand) acc).failed =
        acc.failed + l.countP (fun a => !skipCheck a && !(oracle a.id).isSuccess) ∧
      (l.foldl (processTask oracle rand) acc).skipped =
        acc.skipped + l.countP skipCheck ∧
      (l.foldl (processTask oracle rand) acc).calls =
        acc.calls ++ (l.filter (fun a => !skipCheck a)).map TaskDoc.id := by
  intro l
  induction l with
  | nil => intro acc; simp
  | cons a rest ih =>
    intro acc
    rw [List.foldl_cons]
    obtain ⟨h1, h2, h3, h4⟩ := ih (processTask oracle rand acc a)
    cases hskip : skipCheck a with
    | true =>
      refine ⟨?_, ?_, ?_, ?_⟩
      · rw [h1]; simp [processTask, hskip, List.countP_cons]
      · rw [h2]; simp [processTask, hskip, List.countP_cons]
      · rw [h3]; simp [processTask, hskip, List.countP_cons]; omega
      · rw [h4]; simp [processTask, hskip, List.filter_cons]
    | false =>
      match hora : oracle a.id with
      | .success key kid =>
        refine ⟨?_, ?_, ?_, ?_⟩
        · rw [h1]
          simp [processTask, hskip, hora, JiraOutcome.isSuccess, List.countP_cons]
          omega
        · rw [h2]; simp [processTask, hskip, hora, JiraOutcome.isSuccess, List.countP_cons]
        · rw [h3]; simp [processTask, hskip, hora, List.countP_cons]
        · rw [h4]
          simp [processTask, hskip, hora, List.filter_cons]
      | .failure m =>
        refine ⟨?_, ?_, ?_, ?_⟩
        · rw [h1]; simp [processTask, hskip, hora, JiraOutcome.isSuccess, List.countP_cons]
        · rw [h2]
          simp [processTask, hskip, hora, JiraOutcome.isSuccess, List.countP_cons]
          omega
        · rw [h3]; simp [processTask, hskip, hora, List.countP_cons]
        · rw [h4]
          simp [processTask, hskip, hora, List.filter_cons]

theorem foldl_processTask_preserves_failed (oracle : ℕ → JiraOutcome) (rand : ℕ → Fin 4) :
    ∀ (l : List TaskDoc) (acc : SyncState) (u : TaskDoc),
      u ∈ acc.store → (oracle u.id).isSuccess = false →
      u ∈ (l.foldl (processTask oracle rand) acc).store := by
  intro l
  induction l with
  | nil => intro acc u hu _; simpa using hu
  | cons a rest ih =>
    intro acc u hu hfail
    rw [List.foldl_cons]
    refine ih _ u ?_ hfail
    cases hskip : skipCheck a with
    | true => simpa [processTask, hskip] using hu
    | false =>
      match hora : oracle a.id with
      | .failure m => simpa [processTask, hskip, hora] using hu
      | .success key kid =>
        have hne : ¬ u.id = a.id := by
          intro he
          rw [he, hora] at hfail
          simp [JiraOutcome.isSuccess] at hfail
        have hmem := List.mem_map_of_mem
          (fun v => if v.id = a.id then allocatedUpdate v key kid else v) hu
        simp only [if_neg hne] at hmem
        simpa [processTask, hskip, hora, updateTaskById] using hmem

theorem foldl_processTask_tickets_mono (oracle : ℕ → JiraOutcome) (rand : ℕ → Fin 4) :
    ∀ (l : List TaskDoc) (acc : SyncState) (x : SyncTicket),
      x ∈ acc.tickets → x ∈ (l.foldl (processTask oracle rand) acc).tickets := by
  intro l
  induction l with
  | nil => intro acc x hx; simpa using hx
  | cons a rest ih =>
    intro acc x hx
    rw [List.foldl_cons]
    refine ih _ x ?_
    cases hskip : skipCheck a with
    | true => simpa [processTask, hskip] using hx
    | false =>
      match hora : oracle a.id with
      | .failure m => simp [processTask, hskip, hora]; exact Or.inl hx
      | .success key kid => simp [processTask, hskip, hora]; exact Or.inl hx

theorem failure_ticket_recorded (oracle : ℕ → JiraOutcome) (rand : ℕ → Fin 4) :
    ∀ (l : List TaskDoc) (acc : SyncState) (t : TaskDoc) (msg : String),
      t ∈ l → skipCheck t = false → oracle t.id = JiraOutcome.failure msg →
      errorTicket rand t msg ∈ (l.foldl (processTask oracle rand) acc).tickets := by
  intro l
  induction l with
  | nil => intro acc t msg ht _ _; simp at ht
  | cons a rest ih =>
    intro acc t msg ht hskip hora
    rw [List.foldl_cons]
    rcases List.mem_cons.mp ht with he | hrest
    · subst he
      apply foldl_processTask_tickets_mono
      simp [processTask, hskip, hora]
    · exact ih _ t msg hrest hskip hora

/-- C9: a per-item failure of the external create call during a sync batch
increments only the `failed` counter, appends an error entry to
`results.tickets`, leaves that item's store record unchanged, and never
prevents other items from being attempted: each counter equals the count of
the corresponding outcome over the whole selection, and a create call is
attempted for every non-skipped selected item regardless of failures. -/
theorem syncTasks_failure_isolated (oracle : ℕ → JiraOutcome) (rand : ℕ → Fin 4)
    (store : List TaskDoc) (t : TaskDoc) (msg : String)
    (ht : t ∈ selectedTasks store) (hmsg : oracle t.id = JiraOutcome.failure msg) :
    (syncTasks oracle rand store).created =
      (selectedTasks store).countP (fun a => !skipCheck a && (oracle a.id).isSuccess) ∧
    (syncTasks oracle rand store).failed =
      (selectedTasks store).countP (fun a => !skipCheck a && !(oracle a.id).isSuccess) ∧
    (syncTasks oracle rand store).skipped = (selectedTasks store).countP skipCheck ∧
    (syncTasks oracle rand store).calls =
      ((selectedTasks store).filter (fun a => !skipCheck a)).map TaskDoc.id ∧
    t ∈ (syncTasks oracle rand store).store ∧
    errorTicket rand t msg ∈ (syncTasks oracle rand store).tickets := by
  have hmemf : t ∈ store.filter pendingUnsynced := by
    simpa [selectedTasks] using List.mem_mergeSort.mp ht
  have hskip : skipCheck t = false := by
    have hpu : pendingUnsynced t = true := (List.mem_filter.mp hmemf).2
    simp only [pendingUnsynced, Bool.and_eq_true, Bool.not_eq_true'] at hpu
    simp [skipCheck, hpu.2]
  have hcounts := foldl_processTask_counts oracle rand (selectedTasks store)
    ⟨store, 0, 0, 0, [], []⟩
  have hfail : (oracle t.id).isSuccess = false := by rw [hmsg]; rfl
  refine ⟨?_, ?_, ?_, ?_, ?_, ?_⟩
  · simpa [syncTasks] using hcounts.1
  · simpa [syncTasks] using hcounts.2.1
  · simpa [syncTasks] using hcounts.2.2.1
  · simpa [syncTasks] using hcounts.2.2.2
  · exact foldl_processTask_preserves_failed oracle rand _ _ t
      (List.mem_filter.mp hmemf).1 hfail
  · exact failure_ticket_recorded oracle rand _ _ t msg ht hskip hmsg

/-- A second pending unsynced task for witnesses. -/
def sampleTask2 : TaskDoc :=
  { id := 2, task_id := "T-2", title := "Write tests", role_required := some "qa",
    priority := some "medium", status := "pending", deadline := some 7,
    estimated_hours := some 4, allocated_to := none, synced_to_jira := none,
    jira_issue_key := none, jira_issue_id := none, updatedAt := 0 }

/-- An oracle that fails for task id 1 and succeeds for every other id. -/
def sampleOracleFail : ℕ → JiraOutcome := fun j =>
  if j = 1 then JiraOutcome.failure "boom" else JiraOutcome.success "SCRUM-2" "10002"

/-- Witness for C9: a two-task store where the first item's create fails. -/
theorem syncTasks_failure_isolated_witness :
    (syncTasks sampleOracleFail (fun _ => ⟨0, by decide⟩) [sampleTask, sampleTask2]).created =
      (selectedTasks [sampleTask, sampleTask2]).countP
        (fun a => !skipCheck a && (sampleOracleFail a.id).isSuccess) ∧
    (syncTasks sampleOracleFail (fun _ => ⟨0, by decide⟩) [sampleTask, sampleTask2]).failed =
      (selectedTasks [sampleTask, sampleTask2]).countP
        (fun a => !skipCheck a && !(sampleOracleFail a.id).isSuccess) ∧
    (syncTasks sampleOracleFail (fun _ => ⟨0, by decide⟩) [sampleTask, sampleTask2]).skipped =
      (selectedTasks [sampleTask, sampleTask2]).countP skipCheck ∧
    (syncTasks sampleOracleFail (fun _ => ⟨0, by decide⟩) [sampleTask, sampleTask2]).calls =
      ((selectedTasks [sampleTask, sampleTask2]).filter (fun a => !skipCheck a)).map TaskDoc.id ∧
    sampleTask ∈ (syncTasks sampleOracleFail (fun _ => ⟨0, by decide⟩)
      [sampleTask, sampleTask2]).store ∧
    errorTicket (fun _ => ⟨0, by decide⟩) sampleTask "boom" ∈
      (syncTasks sampleOracleFail (fun _ => ⟨0, by decide⟩) [sampleTask, sampleTask2]).tickets :=
  syncTasks_failure_isolated sampleOracleFail (fun _ => ⟨0, by decide⟩)
    [sampleTask, sampleTask2] sampleTask "boom"
    (by simp only [selectedTasks]; exact List.mem_mergeSort.mpr (by decide)) rfl

/-- The store invariant claimed by the spec: the synced flag is truthy iff a
non-null external issue key is present. -/
def syncedKeyInvariant (t : TaskDoc) : Prop :=
  (t.synced_to_jira = some true) ↔ t.jira_issue_key.isSome = true

theorem foldl_processTask_invariant (oracle : ℕ → JiraOutcome) (rand : ℕ → Fin 4) :
    ∀ (l : List TaskDoc) (acc : SyncState),
      (∀ t ∈ acc.store, syncedKeyInvariant t) →
      ∀ t ∈ (l.foldl (processTask oracle rand) acc).store, syncedKeyInvariant t := by
  intro l
  induction l with
  | nil => intro acc h t ht; exact h t (by simpa using ht)
  | cons a rest ih =>
    intro acc h t ht
    rw [List.foldl_cons] at ht
    refine ih _ ?_ t ht
    intro u hu
    cases hskip : skipCheck a with
    | true => exact h u (by simpa [processTask, hskip] using hu)
    | false =>
      match hora : oracle a.id with
      | .failure m =>
        exact h u (by simpa [processTask, hskip, hora] using hu)
      | .success key kid =>
        rw [processTask, if_neg (by simp [hskip]), hora] at hu
        simp only [updateTaskById, List.mem_map] at hu
        obtain ⟨v, hv, hveq⟩ := hu
        by_cases hid : v.id = a.id
        · rw [if_pos hid] at hveq
          rw [← hveq]
          simp [syncedKeyInvariant, allocatedUpdate]
        · rw [if_neg hid] at hveq
          rw [← hveq]
          exact h v hv

theorem foldl_scriptStep_invariant (oracle : ℕ → JiraOutcome) (now : ℤ) :
    ∀ (l : List TaskDoc) (acc : ScriptState),
      (∀ t ∈ acc.store, syncedKeyInvariant t) →
      ∀ t ∈ (l.foldl (scriptStep oracle now) acc).store, syncedKeyInvariant t := by
  intro l
  induction l with
  | nil => intro acc h t ht; exact h t (by simpa using ht)
  | cons a rest ih =>
    intro acc h t ht
    rw [List.foldl_cons] at ht
    refine ih _ ?_ t ht
    intro u hu
    cases hskip : jsTruthyStr a.jira_issue_key with
    | true => exact h u (by simpa [scriptStep, hskip] using hu)
    | false =>
      match hora : oracle a.id with
      | .failure m =>
        exact h u (by simpa [scriptStep, hskip, hora] using hu)
      | .success key kid =>
        rw [scriptStep, if_neg (by simp [hskip]), hora] at hu
        simp only [List.mem_map] at hu
        obtain ⟨v, hv, hveq⟩ := hu
        by_cases hid : v.id = a.id
        · rw [if_pos hid] at hveq
          rw [← hveq]
          simp [syncedKeyInvariant, scriptUpdate]
        · rw [if_neg hid] at hveq
          rw [← hveq]
          exact h v hv

/-- C4: every reconciler operation (both the sync-tasks route and the
script loop) preserves the invariant that `synced_to_jira` is true iff the
item carries a non-null `jira_issue_key`: a successful create sets both in
one update, and a failed create changes neither. -/
theorem sync_preserves_synced_iff_key (oracle : ℕ → JiraOutcome) (rand : ℕ → Fin 4)
    (now : ℤ) (store : List TaskDoc)
    (hstore : ∀ t ∈ store, syncedKeyInvariant t) :
    (∀ t ∈ (syncTasks oracle rand store).store, syncedKeyInvariant t) ∧
    (∀ t ∈ (scriptRun oracle now store).store, syncedKeyInvariant t) :=
  ⟨foldl_processTask_invariant oracle rand _ _ hstore,
   foldl_scriptStep_invariant oracle now _ _ hstore⟩

/-- Witness for C4: the updated record of a concrete successful run still
satisfies the invariant. -/
theorem sync_preserves_synced_iff_key_witness :
    syncedKeyInvariant (allocatedUpdate sampleTask "SCRUM-9" "10009") :=
  (sync_preserves_synced_iff_key (fun _ => JiraOutcome.success "SCRUM-9" "10009")
    (fun _ => ⟨0, by decide⟩) 0 [sampleTask]
    (by
      intro t ht
      rw [List.mem_singleton] at ht
      subst ht
      simp [syncedKeyInvariant, sampleTask])).1
    (allocatedUpdate sampleTask "SCRUM-9" "10009")
    (by
      have hsel1 : selectedTasks [sampleTask] = [sampleTask] := by
        rw [selectedTasks, show List.filter pendingUnsynced [sampleTask] = [sampleTask] from by decide,
          List.mergeSort_singleton]
      simp only [syncTasks, hsel1]
      decide)

theorem foldl_scriptStep_counts (oracle : ℕ → JiraOutcome) (now : ℤ) :
    ∀ (l : List TaskDoc) (acc : ScriptState),
      (l.foldl (scriptStep oracle now) acc).created =
        acc.created + l.countP (fun a => !jsTruthyStr a.jira_issue_key && (oracle a.id).isSuccess) ∧
      (l.foldl (scriptStep oracle now) acc).skipped =
        acc.skipped + l.countP (fun a => jsTruthyStr a.jira_issue_key) ∧
      (l.foldl (scriptStep oracle now) acc).failed =
        acc.failed + l.countP (fun a => !jsTruthyStr a.jira_issue_key && !(oracle a.id).isSuccess) ∧
      (l.foldl (scriptStep oracle now) acc).calls =
        acc.calls ++ (l.filter (fun a => !jsTruthyStr a.jira_issue_key)).map TaskDoc.id := by
  intro l
  induction l with
  | nil => intro acc; simp
  | cons a rest ih =>
    intro acc
    rw [List.foldl_cons]
    obtain ⟨h1, h2, h3, h4⟩ := ih (scriptStep oracle now acc a)
    cases hskip : jsTruthyStr a.jira_issue_key with
    | true =>
      refine ⟨?_, ?_, ?_, ?_⟩
      · rw [h1]; simp [scriptStep, hskip, List.countP_cons]
      · rw [h2]; simp [scriptStep, hskip, List.countP_cons]; omega
      · rw [h3]; simp [scriptStep, hskip, List.countP_cons]
      · rw [h4]; simp [scriptStep, hskip, List.filter_cons]
    | false =>
      match hora : oracle a.id with
      | .success key kid =>
        refine ⟨?_, ?_, ?_, ?_⟩
        · rw [h1]
          simp [scriptStep, hskip, hora, JiraOutcome.isSuccess, List.countP_cons]
          omega
        · rw [h2]; simp [scriptStep, hskip, hora, List.countP_cons]
        · rw [h3]; simp [scriptStep, hskip, hora, JiraOutcome.isSuccess, List.countP_cons]
        · rw [h4]; simp [scriptStep, hskip, hora, List.filter_cons]
      | .failure m =>
        refine ⟨?_, ?_, ?_, ?_⟩
        · rw [h1]; simp [scriptStep, hskip, hora, JiraOutcome.isSuccess, List.countP_cons]
        · rw [h2]; simp [scriptStep, hskip, hora, List.countP_cons]
        · rw [h3]
          simp [scriptStep, hskip, hora, JiraOutcome.isSuccess, List.countP_cons]
          omega
        · rw [h4]; simp [scriptStep, hskip, hora, List.filter_cons]

/-- C2: in the script reconciler, a store of exactly 5 tasks, 3 without a
truthy external key and 2 already carrying one, with every external create
succeeding, reports `created = 3`, `skipped = 2`, `failed = 0`, and the
external calls made are exactly those for the 3 unkeyed tasks (no call is
made for the 2 keyed ones). -/
theorem scriptRun_three_unsynced_two_keyed (oracle : ℕ → JiraOutcome) (now : ℤ)
    (tasks : List TaskDoc)
    (hlen : tasks.length = 5)
    (hkeyed : tasks.countP (fun a => jsTruthyStr a.jira_issue_key) = 2)
    (hunkeyed : tasks.countP (fun a => !jsTruthyStr a.jira_issue_key) = 3)
    (hsucc : ∀ a ∈ tasks, (oracle a.id).isSuccess = true) :
    (scriptRun oracle now tasks).created = 3 ∧
    (scriptRun oracle now tasks).skipped = 2 ∧
    (scriptRun oracle now tasks).failed = 0 ∧
    (scriptRun oracle now tasks).calls =
      (tasks.filter (fun a => !jsTruthyStr a.jira_issue_key)).map TaskDoc.id := by
  obtain ⟨h1, h2, h3, h4⟩ := foldl_scriptStep_counts oracle now tasks ⟨tasks, 0, 0, 0, []⟩
  have hc : tasks.countP (fun a => !jsTruthyStr a.jira_issue_key && (oracle a.id).isSuccess) =
      tasks.countP (fun a => !jsTruthyStr a.jira_issue_key) := by
    refine List.countP_congr ?_
    intro a ha
    simp [hsucc a ha]
  have hf : tasks.countP (fun a => !jsTruthyStr a.jira_issue_key && !(oracle a.id).isSuccess) = 0 := by
    rw [List.countP_eq_zero]
    intro a ha
    simp [hsucc a ha]
  refine ⟨?_, ?_, ?_, ?_⟩
  · unfold scriptRun; rw [h1, hc, hunkeyed]
  · unfold scriptRun; rw [h2, hkeyed]
  · unfold scriptRun; rw [h3, hf]
  · unfold scriptRun; rw [h4]; simp

/-- Three keyless and two keyed tasks for the C2 witness. -/
def c2store : List TaskDoc :=
  [sampleTask, sampleTask2,
   { id := 3, task_id := "T-3", title := "Deploy", role_required := some "devops",
     priority := some "low", status := "pending", deadline := some 9,
     estimated_hours := some 2, allocated_to := none, synced_to_jira := none,
     jira_issue_key := none, jira_issue_id := none, updatedAt := 0 },
   { id := 4, task_id := "T-4", title := "Design", role_required := some "frontend",
     priority := some "high", status := "allocated", deadline := some 3,
     estimated_hours := some 6, allocated_to := none, synced_to_jira := some true,
     jira_issue_key := some "SCRUM-4", jira_issue_id := some "10004", updatedAt := 0 },
   { id := 5, task_id := "T-5", title := "Review", role_required := some "qa",
     priority := some "medium", status := "allocated", deadline := some 2,
     estimated_hours := some 1, allocated_to := none, synced_to_jira := some true,
     jira_issue_key := some "SCRUM-5", jira_issue_id := some "10005", updatedAt := 0 }]

/-- Witness for C2 on a concrete 5-task store with an always-succeeding
external API. -/
theorem scriptRun_three_unsynced_two_keyed_witness :
    (scriptRun (fun _ => JiraOutcome.success "SCRUM-9" "10009") 0 c2store).created = 3 ∧
    (scriptRun (fun _ => JiraOutcome.success "SCRUM-9" "10009") 0 c2store).skipped = 2 ∧
    (scriptRun (fun _ => JiraOutcome.success "SCRUM-9" "10009") 0 c2store).failed = 0 ∧
    (scriptRun (fun _ => JiraOutcome.success "SCRUM-9" "10009") 0 c2store).calls =
      (c2store.filter (fun a => !jsTruthyStr a.jira_issue_key)).map TaskDoc.id :=
  scriptRun_three_unsynced_two_keyed (fun _ => JiraOutcome.success "SCRUM-9" "10009") 0 c2store
    (by decide) (by decide) (by decide) (by intro a _; rfl)

/-- A `User` document, projected to the field the finance aggregations read. -/
structure UserDoc where
  hourly_rate : Option ℚ
deriving DecidableEq, Repr

/-- The query `User.find({ hourly_rate: { $exists: true, $gt: 0 } })`. -/
def ratedUsers (users : List UserDoc) : List UserDoc :=
  users.filter (fun u =>
    match u.hourly_rate with
    | some r => decide (0 < r)
    | none => false)

/-- The average `users.length > 0 ? users.reduce((sum, u) => sum + u.hourly_rate, 0) /
users.length : 75` over the rated-users query result. -/
def avgHourlyRate (users : List UserDoc) : ℚ :=
  let rated := ratedUsers users
  if 0 < rated.length then
    (rated.foldl (fun s u => s + u.hourly_rate.getD 0) 0) / rated.length
  else 75

/-- The sum `tasks.reduce((sum, t) => sum + (t.estimated_hours || 0), 0)`. -/
def totalEstimatedHours (tasks : List TaskDoc) : ℚ :=
  tasks.foldl (fun s t => s + jsOrQ t.estimated_hours 0) 0

/-- The filter `tasks.filter(t => t.status === 'done')`. -/
def completedTasks (tasks : List TaskDoc) : List TaskDoc :=
  tasks.filter (fun t => t.status == "done")

/-- The sum `completedTasks.reduce((sum, t) => sum + (t.estimated_hours || 0), 0)`. -/
def completedHours (tasks : List TaskDoc) : ℚ :=
  (completedTasks tasks).foldl (fun s t => s + jsOrQ t.estimated_hours 0) 0

/-- The product `totalBudgetedCost = totalEstimatedHours * avgHourlyRate` in
`GET /api/finance/overview`. -/
def totalBudgetedCost (users : List UserDoc) (tasks : List TaskDoc) : ℚ :=
  totalEstimatedHours tasks * avgHourlyRate users

/-- The product `actualSpentCost = completedHours * avgHourlyRate`. -/
def actualSpentCost (users : List UserDoc) (tasks : List TaskDoc) : ℚ :=
  completedHours tasks * avgHourlyRate users

/-- C5: the financial overview's budgeted cost is exactly the product of
summed estimated hours and the average hourly rate, the actual spent cost
is exactly the product of the done-tasks hours and the same rate, the
average is the true mean of the positive rates when any exist, and with no
positively-rated person it falls back to the constant 75 (no division by
zero is ever performed). -/
theorem overview_costs (users : List UserDoc) (tasks : List TaskDoc) :
    totalBudgetedCost users tasks = totalEstimatedHours tasks * avgHourlyRate users ∧
    actualSpentCost users tasks = completedHours tasks * avgHourlyRate users ∧
    (ratedUsers users = [] → avgHourlyRate users = 75) ∧
    (ratedUsers users ≠ [] →
      avgHourlyRate users * ((ratedUsers users).length : ℚ) =
        (ratedUsers users).foldl (fun s u => s + u.hourly_rate.getD 0) 0) := by
  refine ⟨rfl, rfl, ?_, ?_⟩
  · intro h
    simp [avgHourlyRate, h]
  · intro h
    have hlen : 0 < (ratedUsers users).length := List.length_pos.mpr h
    have hne : ((ratedUsers users).length : ℚ) ≠ 0 := by
      exact_mod_cast Nat.pos_iff_ne_zero.mp hlen
    simp only [avgHourlyRate, if_pos hlen]
    exact div_mul_cancel₀ _ hne

/-- Witness for C5: the fallback on a rate-less roster and the mean on a
two-person roster. -/
theorem overview_costs_witness :
    avgHourlyRate [⟨none⟩] = 75 ∧
    avgHourlyRate [⟨some 50⟩, ⟨some 100⟩] * ((ratedUsers [⟨some 50⟩, ⟨some 100⟩]).length : ℚ) =
      (ratedUsers [⟨some 50⟩, ⟨some 100⟩]).foldl (fun s u => s + u.hourly_rate.getD 0) 0 :=
  ⟨(overview_costs [⟨none⟩] []).2.2.1 (by decide),
   (overview_costs [⟨some 50⟩, ⟨some 100⟩] []).2.2.2 (by decide)⟩

/-- Forward allocation transform in `GET /api/smart-allocate/employees`:
`workloadScore = Math.max(0, Math.min(1, 1 - freeSlots / maxSlots))` with
`maxSlots = 40`. -/
def workloadScore (freeSlots : ℚ) : ℚ :=
  max 0 (min 1 (1 - freeSlots / 40))

/-- Reverse transform in `PATCH /api/smart-allocate/employees/:id/workload`:
`freeSlots = Math.round((1 - workload) * 40)`. -/
def workloadToFreeSlots (workload : ℚ) : ℤ :=
  round ((1 - workload) * 40)

/-- C6: the allocation transform's forward-then-reverse round trip on the
workload score recovers the original free-capacity hours to within ±1 hour
for every value in the representable range `0 ≤ freeSlots ≤ 40`. -/
theorem workload_roundTrip (freeSlots : ℚ) (h0 : 0 ≤ freeSlots) (h40 : freeSlots ≤ 40) :
    |((workloadToFreeSlots (workloadScore freeSlots) : ℚ)) - freeSlots| ≤ 1 := by
  have hdiv0 : (0 : ℚ) ≤ freeSlots / 40 := by positivity
  have hdiv1 : freeSlots / 40 ≤ 1 := by
    rw [div_le_one (by norm_num : (0:ℚ) < 40)]
    exact h40
  have hws : workloadScore freeSlots = 1 - freeSlots / 40 := by
    rw [workloadScore, min_eq_right (by linarith), max_eq_right (by linarith)]
  have harg : (1 - workloadScore freeSlots) * 40 = freeSlots := by
    rw [hws]
    field_simp
  rw [workloadToFreeSlots, harg]
  calc |((round freeSlots : ℚ)) - freeSlots| = |freeSlots - (round freeSlots : ℚ)| :=
        abs_sub_comm _ _
    _ ≤ 1 / 2 := abs_sub_round freeSlots
    _ ≤ 1 := by norm_num

/-- Witness for C6 at 17 free hours (and at a fractional 7/2 hours). -/
theorem workload_roundTrip_witness :
    |((workloadToFreeSlots (workloadScore 17) : ℚ)) - 17| ≤ 1 ∧
    |((workloadToFreeSlots (workloadScore (7/2)) : ℚ)) - 7/2| ≤ 1 :=
  ⟨workload_roundTrip 17 (by norm_num) (by norm_num),
   workload_roundTrip (7/2) (by norm_num) (by norm_num)⟩

/-- The check `t.deadline && new Date(t.deadline) < now`: present and in the past. -/
def pastDeadline (now : ℤ) (t : TaskDoc) : Bool :=
  match t.deadline with
  | some d => decide (d < now)
  | none => false

/-- The check `t.deadline && new Date(t.deadline) < now && t.status !== 'done'`. -/
def isOverdue (now : ℤ) (t : TaskDoc) : Bool :=
  pastDeadline now t && !(t.status == "done")

/-- A `Commit` document projected to the fields the HR routes read. -/
structure CommitDoc where
  author_id : Option String
  timestamp : ℤ
deriving DecidableEq, Repr

/-- The clamp `Math.min(1, (inProgressTasks.length + overdueTasks.length) / 8)`. -/
def workloadFactor (inProg overdue : ℕ) : ℚ :=
  min 1 ((inProg + overdue : ℚ) / 8)

/-- The decline `avgCommitsPerMonth = userCommits.length / Math.max(1, 6)` and
`activityDecline = avgCommitsPerMonth > 0 ? Math.max(0, 1 -
recentCommits.length / avgCommitsPerMonth) : 0`. -/
def activityDecline (total recent : ℕ) : ℚ :=
  let avgCommitsPerMonth : ℚ := (total : ℚ) / (max 1 6 : ℕ)
  if 0 < avgCommitsPerMonth then max 0 (1 - (recent : ℚ) / avgCommitsPerMonth) else 0

/-- The clamp `Math.min(1, overdueTasks.length / 3)`. -/
def overdueStress (overdue : ℕ) : ℚ :=
  min 1 ((overdue : ℚ) / 3)

/-- The per-employee retention risk score of `GET /api/hr/retention-analysis`:
filter the store down to the employee's tasks and commits, compute the three
clamped factors, combine with weights 40/30/30 and round. -/
def retentionRiskScore (now : ℤ) (uid : String) (tasks : List TaskDoc)
    (commits : List CommitDoc) : ℤ :=
  let userCommits := commits.filter (fun c => c.author_id == some uid)
  let userTasks := tasks.filter (fun t => t.allocated_to == some uid)
  let recentCommits := userCommits.filter (fun c => decide (now - 30 ≤ c.timestamp))
  let overdueTasks := userTasks.filter (isOverdue now)
  let inProgressTasks := userTasks.filter (fun t => t.status == "in_progress")
  round (workloadFactor inProgressTasks.length overdueTasks.length * 40 +
    activityDecline userCommits.length recentCommits.length * 30 +
    overdueStress overdueTasks.length * 30)

/-- The risk-level thresholds applied to the score. -/
def retentionRiskLevel (score : ℤ) : String :=
  if 70 ≤ score then "critical"
  else if 50 ≤ score then "high"
  else if 30 ≤ score then "medium"
  else "low"

theorem round_le_round_of_le {x y : ℚ} (h : x ≤ y) : round x ≤ round y := by
  rw [round_eq, round_eq]
  exact Int.floor_le_floor (by linarith)

theorem workloadFactor_bounds (i o : ℕ) :
    0 ≤ workloadFactor i o ∧ workloadFactor i o ≤ 1 := by
  constructor
  · exact le_min (by norm_num) (by positivity)
  · exact min_le_left _ _

theorem activityDecline_bounds (t r : ℕ) :
    0 ≤ activityDecline t r ∧ activityDecline t r ≤ 1 := by
  rw [activityDecline]
  split
  · constructor
    · exact le_max_left _ _
    · rename_i hpos
      refine max_le (by norm_num) ?_
      have : (0 : ℚ) ≤ (r : ℚ) / ((t : ℚ) / ((max 1 6 : ℕ) : ℚ)) := by
        exact div_nonneg (by positivity) (le_of_lt hpos)
      linarith
  · exact ⟨le_refl 0, by norm_num⟩

theorem overdueStress_bounds (o : ℕ) :
    0 ≤ overdueStress o ∧ overdueStress o ≤ 1 := by
  constructor
  · exact le_min (by norm_num) (by positivity)
  · exact min_le_left _ _

theorem weighted_round_bounds (wf ad os : ℚ)
    (h1 : 0 ≤ wf) (h2 : wf ≤ 1) (h3 : 0 ≤ ad) (h4 : ad ≤ 1)
    (h5 : 0 ≤ os) (h6 : os ≤ 1) :
    0 ≤ round (wf * 40 + ad * 30 + os * 30) ∧
    round (wf * 40 + ad * 30 + os * 30) ≤ 100 := by
  have hlo : (0 : ℚ) ≤ wf * 40 + ad * 30 + os * 30 := by nlinarith
  have hhi : wf * 40 + ad * 30 + os * 30 ≤ 100 := by nlinarith
  constructor
  · have := round_le_round_of_le hlo
    simpa using this
  · have := round_le_round_of_le hhi
    have h100 : round (100 : ℚ) = 100 := by
      rw [show (100 : ℚ) = ((100 : ℤ) : ℚ) by norm_num]
      exact round_intCast 100
    omega

/-- C10: for every employee and any input data, the retention risk score is
an integer in `[0, 100]` (each factor being clamped to `[0, 1]` and the
weights being 40/30/30), and the risk level is `critical` for scores ≥ 70,
`high` for 50–69, `medium` for 30–49 and `low` below 30. -/
theorem retention_score_bounds (now : ℤ) (uid : String) (tasks : List TaskDoc)
    (commits : List CommitDoc) :
    0 ≤ retentionRiskScore now uid tasks commits ∧
    retentionRiskScore now uid tasks commits ≤ 100 ∧
    (∀ i o : ℕ, 0 ≤ workloadFactor i o ∧ workloadFactor i o ≤ 1) ∧
    (∀ t r : ℕ, 0 ≤ activityDecline t r ∧ activityDecline t r ≤ 1) ∧
    (∀ o : ℕ, 0 ≤ overdueStress o ∧ overdueStress o ≤ 1) ∧
    retentionRiskLevel (retentionRiskScore now uid tasks commits) =
      (if 70 ≤ retentionRiskScore now uid tasks commits then "critical"
       else if 50 ≤ retentionRiskScore now uid tasks commits then "high"
       else if 30 ≤ retentionRiskScore now uid tasks commits then "medium"
       else "low") := by
  have hbounds := weighted_round_bounds
    (workloadFactor ((tasks.filter (fun t => t.allocated_to == some uid)).filter
      (fun t => t.status == "in_progress")).length
      ((tasks.filter (fun t => t.allocated_to == some uid)).filter (isOverdue now)).length)
    (activityDecline (commits.filter (fun c => c.author_id == some uid)).length
      ((commits.filter (fun c => c.author_id == some uid)).filter
        (fun c => decide (now - 30 ≤ c.timestamp))).length)
    (overdueStress ((tasks.filter (fun t => t.allocated_to == some uid)).filter
      (isOverdue now)).length)
    (workloadFactor_bounds _ _).1 (workloadFactor_bounds _ _).2
    (activityDecline_bounds _ _).1 (activityDecline_bounds _ _).2
    (overdueStress_bounds _).1 (overdueStress_bounds _).2
  refine ⟨?_, ?_, fun i o => workloadFactor_bounds i o,
    fun t r => activityDecline_bounds t r, fun o => overdueStress_bounds o, rfl⟩
  · exact hbounds.1
  · exact hbounds.2

/-- One entry of the `risks` array of `GET /api/finance/risk-assessment`. -/
structure Risk where
  type : String
  severity : String
  count : ℕ
  potential_cost_impact : ℤ
  description : String
  recommendation : String
deriving DecidableEq, Repr

/-- Rule 1 selection: tasks past their deadline and not done. -/
def delayedTasksOf (now : ℤ) (tasks : List TaskDoc) : List TaskDoc :=
  tasks.filter (isOverdue now)

/-- The sum of `(t.estimated_hours || 8)` over a task list. -/
def sumHoursOr8 (tasks : List TaskDoc) : ℚ :=
  tasks.foldl (fun s t => s + jsOrQ t.estimated_hours 8) 0

/-- Rule 2 selection: `t.allocated_to && t.status !== 'done'`. -/
def allocatedOpenTasks (tasks : List TaskDoc) : List TaskDoc :=
  tasks.filter (fun t => t.allocated_to.isSome && !(t.status == "done"))

/-- Hours allocated to one user over the open allocated tasks. -/
def userWorkloadHours (allocTasks : List TaskDoc) (uid : String) : ℚ :=
  sumHoursOr8 (allocTasks.filter (fun t => t.allocated_to == some uid))

/-- The user ids whose accumulated open workload exceeds 40 hours (the
`userWorkload` object keyed by user id; only its size is consumed, so the
dedup order is irrelevant). -/
def overloadedUsers (tasks : List TaskDoc) : List String :=
  let allocTasks := allocatedOpenTasks tasks
  ((allocTasks.filterMap TaskDoc.allocated_to).dedup).filter
    (fun u => decide (40 < userWorkloadHours allocTasks u))

/-- Rule 3 selection: `t.priority === 'high' && !t.allocated_to &&
t.status === 'pending'`. -/
def unassignedHighPriority (tasks : List TaskDoc) : List TaskDoc :=
  tasks.filter (fun t =>
    t.priority == some "high" && !t.allocated_to.isSome && t.status == "pending")

/-- The four conditionally-pushed risk entries, in source order. -/
def riskList (now : ℤ) (tasks : List TaskDoc) (users : List UserDoc) : List Risk :=
  let avg := avgHourlyRate users
  let delayed := delayedTasksOf now tasks
  let r1 : List Risk :=
    if 0 < delayed.length then
      [{ type := "delayed_tasks",
         severity := if 5 < delayed.length then "high"
                     else if 2 < delayed.length then "medium" else "low",
         count := delayed.length,
         potential_cost_impact := round (sumHoursOr8 delayed * avg * (3 / 10)),
         description := toString delayed.length ++ " tasks are past their deadline",
         recommendation := "Prioritize completing delayed tasks or adjust timelines" }]
    else []
  let overloaded := overloadedUsers tasks
  let r2 : List Risk :=
    if 0 < overloaded.length then
      [{ type := "resource_overload",
         severity := if 3 < overloaded.length then "high" else "medium",
         count := overloaded.length,
         potential_cost_impact := round ((overloaded.length : ℚ) * avg * 8),
         description := toString overloaded.length ++ " team members are overallocated",
         recommendation := "Redistribute tasks or adjust timelines" }]
    else []
  let unassigned := unassignedHighPriority tasks
  let r3 : List Risk :=
    if 0 < unassigned.length then
      [{ type := "unassigned_priority",
         severity := if 3 < unassigned.length then "high" else "medium",
         count := unassigned.length,
         potential_cost_impact := round ((unassigned.length : ℚ) * avg * 16),
         description := toString unassigned.length ++ " high-priority tasks are not assigned",
         recommendation := "Immediately assign resources to high-priority tasks" }]
    else []
  let pendingCount := (tasks.filter (fun t => t.status == "pending")).length
  let totalCount := tasks.length
  let r4 : List Risk :=
    if 0 < totalCount ∧ (6 / 10 : ℚ) < (pendingCount : ℚ) / (totalCount : ℚ) then
      [{ type := "scope_creep",
         severity := "medium",
         count := pendingCount,
         potential_cost_impact := round ((pendingCount : ℚ) * avg * 4),
         description := toString (round ((pendingCount : ℚ) / (totalCount : ℚ) * 100)) ++
           "% of tasks are still pending",
         recommendation := "Review sprint scope and prioritize essential tasks" }]
    else []
  r1 ++ r2 ++ r3 ++ r4

/-- The `severityOrder` lookup `{ high: 0, medium: 1, low: 2 }` (every
generated severity is one of the three keys; 3 stands for the JS
`undefined` of an unknown key, which never occurs). -/
def severityOrder (s : String) : ℕ :=
  if s == "high" then 0 else if s == "medium" then 1 else if s == "low" then 2 else 3

/-- The response of `GET /api/finance/risk-assessment`. -/
structure RiskReport where
  overall_risk_level : String
  total_risk_exposure : ℤ
  risks : List Risk
  high_risks : ℕ
  medium_risks : ℕ
  low_risks : ℕ
  total_risks : ℕ
deriving Repr

/-- The full risk-assessment computation: build the rule results, total the
exposure (`Math.round` of an integer sum is the identity), count
severities, sort by severity rank, and derive the overall level. -/
def riskAssessment (now : ℤ) (tasks : List TaskDoc) (users : List UserDoc) : RiskReport :=
  let risks := riskList now tasks users
  let totalRiskCost := risks.foldl (fun s r => s + r.potential_cost_impact) 0
  let highRisks := (risks.filter (fun r => r.severity == "high")).length
  let mediumRisks := (risks.filter (fun r => r.severity == "medium")).length
  { overall_risk_level :=
      if 0 < highRisks then "high" else if 2 < mediumRisks then "medium" else "low",
    total_risk_exposure := totalRiskCost,
    risks := risks.mergeSort (fun a b => decide (severityOrder a.severity ≤ severityOrder b.severity)),
    high_risks := highRisks,
    medium_risks := mediumRisks,
    low_risks := (risks.filter (fun r => r.severity == "low")).length,
    total_risks := risks.length }

/-- C7: risk assessment on an empty task set yields an empty risk list,
zero total exposure and overall level `low`; in general the overall level
is `low` exactly when there are zero high risks and at most two medium
risks, and the returned risk list is sorted by severity rank (high before
medium before low). -/
theorem riskAssessment_empty_low_sorted (now : ℤ) (tasks : List TaskDoc)
    (users : List UserDoc) :
    (riskAssessment now [] users).risks = [] ∧
    (riskAssessment now [] users).total_risk_exposure = 0 ∧
    (riskAssessment now [] users).overall_risk_level = "low" ∧
    ((riskAssessment now tasks users).overall_risk_level = "low" ↔
      (riskAssessment now tasks users).high_risks = 0 ∧
      (riskAssessment now tasks users).medium_risks ≤ 2) ∧
    List.Pairwise (fun a b => severityOrder a.severity ≤ severityOrder b.severity)
      (riskAssessment now tasks users).risks := by
  have hempty : riskList now [] users = [] := by
    simp [riskList, delayedTasksOf, isOverdue, overloadedUsers, allocatedOpenTasks,
      unassignedHighPriority]
  refine ⟨?_, ?_, ?_, ?_, ?_⟩
  · simp [riskAssessment, hempty]
  · simp [riskAssessment, hempty]
  · simp [riskAssessment, hempty]
  · simp only [riskAssessment]
    split
    · rename_i h1
      refine ⟨fun hc => absurd hc (by decide), fun hc => absurd hc.1 (by omega)⟩
    · split
      · rename_i h1 h2
        refine ⟨fun hc => absurd hc (by decide), fun hc => absurd hc.2 (by omega)⟩
      · rename_i h1 h2
        exact ⟨fun _ => ⟨by omega, by omega⟩, fun _ => rfl⟩
  · simp only [riskAssessment]
    have hsorted := @List.sorted_mergeSort Risk
      (fun a b : Risk => decide (severityOrder a.severity ≤ severityOrder b.severity))
      (fun a b c hab hbc => by
        simp only [decide_eq_true_eq] at hab hbc ⊢
        omega)
      (fun a b => by
        simp only [Bool.or_eq_true, decide_eq_true_eq]
        omega)
      (riskList now tasks users)
    exact hsorted.imp (fun h => by simpa using h)

/-- An `Issue` document projected to the fields daily-progress reads
(`issue.cost?.actual_cost` flattened to one optional field). -/
structure IssueDoc where
  updated_at : ℤ
  actual_cost : Option ℚ
deriving DecidableEq, Repr

/-- One per-day accumulator object of `GET /api/finance/daily-progress`. -/
structure DayBucket where
  date : ℤ
  completed : ℕ
  started : ℕ
  delayed : ℕ
  on_track : ℕ
  cost_incurred : ℚ
  hours_logged : ℚ
deriving DecidableEq, Repr

def emptyBucket (d : ℤ) : DayBucket :=
  { date := d, completed := 0, started := 0, delayed := 0, on_track := 0,
    cost_incurred := 0, hours_logged := 0 }

/-- The per-task update of the bucket whose date key matches the task's
last-update day: count done/in-progress, log hours for done tasks, and
classify the rest as delayed (past deadline) or on track. -/
def applyTask (now : ℤ) (b : DayBucket) (t : TaskDoc) : DayBucket :=
  if t.updatedAt = b.date then
    let b1 := if t.status == "done" then
        { b with completed := b.completed + 1,
                 hours_logged := b.hours_logged + jsOrQ t.estimated_hours 0 }
      else b
    let b2 := if t.status == "in_progress" then { b1 with started := b1.started + 1 } else b1
    if pastDeadline now t && !(t.status == "done") then
      { b2 with delayed := b2.delayed + 1 }
    else if !(t.status == "done") then
      { b2 with on_track := b2.on_track + 1 }
    else b2
  else b

/-- The per-issue update: `cost_incurred += issue.cost?.actual_cost || 0`. -/
def applyIssue (b : DayBucket) (i : IssueDoc) : DayBucket :=
  if i.updated_at = b.date then
    { b with cost_incurred := b.cost_incurred + jsOrQ i.actual_cost 0 }
  else b

/-- The query filter `updatedAt: { $gte: startDate }` at day granularity. -/
def windowTasks (today : ℤ) (days : ℕ) (tasks : List TaskDoc) : List TaskDoc :=
  tasks.filter (fun t => decide (today - days ≤ t.updatedAt))

def windowIssues (today : ℤ) (days : ℕ) (issues : List IssueDoc) : List IssueDoc :=
  issues.filter (fun i => decide (today - days ≤ i.updated_at))

/-- The finished bucket for the day key `d`: start empty, fold the windowed
tasks, then the windowed issues (tasks and issues whose day key is absent
from the map leave every bucket untouched). -/
def dayBucket (today : ℤ) (days : ℕ) (tasks : List TaskDoc)
    (issues : List IssueDoc) (d : ℤ) : DayBucket :=
  (windowIssues today days issues).foldl applyIssue
    ((windowTasks today days tasks).foldl (applyTask today) (emptyBucket d))

/-- The map keys built by `for (let i = 0; i < days; i++)`, in insertion
order: today, yesterday, ... -/
def dailyDates (today : ℤ) (days : ℕ) : List ℤ :=
  (List.range days).map (fun i => today - i)

/-- A bucket extended with the running totals attached by the final
`sortedDays.forEach`. -/
structure DayOut extends DayBucket where
  cumulative_completed : ℕ
  cumulative_cost : ℤ
  cumulative_hours : ℚ
deriving DecidableEq, Repr

/-- The cumulative pass over the date-sorted buckets:
`cumulative_cost = Math.round(running cost)` and
`cumulative_hours = Math.round(running hours * 10) / 10`. -/
def cumulate : ℕ → ℚ → ℚ → List DayBucket → List DayOut
  | _, _, _, [] => []
  | cc, cost, hrs, b :: rest =>
    let cc2 := cc + b.completed
    let cost2 := cost + b.cost_incurred
    let hrs2 := hrs + b.hours_logged
    { toDayBucket := b, cumulative_completed := cc2,
      cumulative_cost := round cost2,
      cumulative_hours := (round (hrs2 * 10) : ℚ) / 10 } :: cumulate cc2 cost2 hrs2 rest

/-- The `daily_breakdown` array of `GET /api/finance/daily-progress`: the
per-day buckets sorted chronologically, with cumulative totals attached. -/
def dailyBreakdown (today : ℤ) (days : ℕ) (tasks : List TaskDoc)
    (issues : List IssueDoc) : List DayOut :=
  cumulate 0 0 0
    (((dailyDates today days).map (dayBucket today days tasks issues)).mergeSort
      (fun a b => decide (a.date ≤ b.date)))

theorem applyTask_date (now : ℤ) (b : DayBucket) (t : TaskDoc) :
    (applyTask now b t).date = b.date := by
  rw [applyTask]
  split_ifs <;> rfl

theorem applyIssue_date (b : DayBucket) (i : IssueDoc) :
    (applyIssue b i).date = b.date := by
  rw [applyIssue]
  split_ifs <;> rfl

theorem foldl_applyTask_date (now : ℤ) :
    ∀ (l : List TaskDoc) (b : DayBucket), (l.foldl (applyTask now) b).date = b.date := by
  intro l
  induction l with
  | nil => intro b; rfl
  | cons a rest ih =>
    intro b
    rw [List.foldl_cons, ih, applyTask_date]

theorem foldl_applyIssue_date :
    ∀ (l : List IssueDoc) (b : DayBucket), (l.foldl applyIssue b).date = b.date := by
  intro l
  induction l with
  | nil => intro b; rfl
  | cons a rest ih =>
    intro b
    rw [List.foldl_cons, ih, applyIssue_date]

theorem dayBucket_date (today : ℤ) (days : ℕ) (tasks : List TaskDoc)
    (issues : List IssueDoc) (d : ℤ) :
    (dayBucket today days tasks issues d).date = d := by
  rw [dayBucket, foldl_applyIssue_date, foldl_applyTask_date]
  rfl

theorem applyTask_skip (now : ℤ) (b : DayBucket) (t : TaskDoc)
    (h : ¬ t.updatedAt = b.date) : applyTask now b t = b := by
  rw [applyTask, if_neg h]

theorem foldl_applyTask_skip (now : ℤ) :
    ∀ (l : List TaskDoc) (b : DayBucket), (∀ t ∈ l, ¬ t.updatedAt = b.date) →
      l.foldl (applyTask now) b = b := by
  intro l
  induction l with
  | nil => intro b _; rfl
  | cons a rest ih =>
    intro b h
    rw [List.foldl_cons, applyTask_skip now b a (h a (List.mem_cons_self _ _))]
    exact ih b (fun t ht => h t (List.mem_cons_of_mem _ ht))

theorem applyIssue_skip (b : DayBucket) (i : IssueDoc)
    (h : ¬ i.updated_at = b.date) : applyIssue b i = b := by
  rw [applyIssue, if_neg h]

theorem foldl_applyIssue_skip :
    ∀ (l : List IssueDoc) (b : DayBucket), (∀ i ∈ l, ¬ i.updated_at = b.date) →
      l.foldl applyIssue b = b := by
  intro l
  induction l with
  | nil => intro b _; rfl
  | cons a rest ih =>
    intro b h
    rw [List.foldl_cons, applyIssue_skip b a (h a (List.mem_cons_self _ _))]
    exact ih b (fun i hi => h i (List.mem_cons_of_mem _ hi))

theorem applyTask_match (now : ℤ) (b : DayBucket) (t : TaskDoc)
    (h : t.updatedAt = b.date) :
    applyTask now b t = { b with
      completed := b.completed + (if t.status == "done" then 1 else 0),
      started := b.started + (if t.status == "in_progress" then 1 else 0),
      delayed := b.delayed +
        (if pastDeadline now t && !(t.status == "done") then 1 else 0),
      on_track := b.on_track +
        (if !(pastDeadline now t) && !(t.status == "done") then 1 else 0),
      hours_logged := b.hours_logged +
        (if t.status == "done" then jsOrQ t.estimated_hours 0 else 0) } := by
  cases b
  rw [applyTask, if_pos h]
  cases hdone : t.status == "done" <;> cases hpd : pastDeadline now t <;>
    cases hinp : t.status == "in_progress" <;>
      simp [hdone, hpd, hinp]

theorem foldl_applyTask_all (now : ℤ) :
    ∀ (l : List TaskDoc) (b : DayBucket), (∀ t ∈ l, t.updatedAt = b.date) →
      l.foldl (applyTask now) b = { b with
        completed := b.completed + l.countP (fun t => t.status == "done"),
        started := b.started + l.countP (fun t => t.status == "in_progress"),
        delayed := b.delayed +
          l.countP (fun t => pastDeadline now t && !(t.status == "done")),
        on_track := b.on_track +
          l.countP (fun t => !(pastDeadline now t) && !(t.status == "done")),
        hours_logged := b.hours_logged +
          ((l.filter (fun t => t.status == "done")).map
            (fun t => jsOrQ t.estimated_hours 0)).sum } := by
  intro l
  induction l with
  | nil => intro b _; simp
  | cons a rest ih =>
    intro b hall
    rw [List.foldl_cons,
      ih (applyTask now b a)
        (fun t ht => by rw [hall t (List.mem_cons_of_mem _ ht), applyTask_date]),
      applyTask_match now b a (hall a (List.mem_cons_self _ _))]
    cases b
    cases hdone : a.status == "done" <;> cases hpd : pastDeadline now a <;>
      cases hinp : a.status == "in_progress" <;>
        simp [hdone, hpd, hinp, List.countP_cons, List.filter_cons]
    all_goals and_intros
    all_goals first
    | omega
    | ring

theorem applyIssue_match (b : DayBucket) (i : IssueDoc)
    (h : i.updated_at = b.date) :
    applyIssue b i = { b with cost_incurred := b.cost_incurred + jsOrQ i.actual_cost 0 } := by
  rw [applyIssue, if_pos h]

theorem foldl_applyIssue_all :
    ∀ (l : List IssueDoc) (b : DayBucket), (∀ i ∈ l, i.updated_at = b.date) →
      l.foldl applyIssue b = { b with
        cost_incurred := b.cost_incurred + (l.map (fun i => jsOrQ i.actual_cost 0)).sum } := by
  intro l
  induction l with
  | nil => intro b _; simp
  | cons a rest ih =>
    intro b hall
    rw [List.foldl_cons,
      ih (applyIssue b a)
        (fun i hi => by rw [hall i (List.mem_cons_of_mem _ hi), applyIssue_date]),
      applyIssue_match b a (hall a (List.mem_cons_self _ _))]
    cases b
    simp [List.map_cons, List.sum_cons]
    ring

theorem cumulate_toDayBucket_mem :
    ∀ (l : List DayBucket) (cc : ℕ) (c h : ℚ) (x : DayOut),
      x ∈ cumulate cc c h l → x.toDayBucket ∈ l := by
  intro l
  induction l with
  | nil => intro cc c h x hx; simp [cumulate] at hx
  | cons b rest ih =>
    intro cc c h x hx
    simp only [cumulate, List.mem_cons] at hx
    rcases hx with he | hrest
    · subst he
      exact List.mem_cons_self _ _
    · exact List.mem_cons_of_mem _ (ih _ _ _ x hrest)

theorem cumulate_exists_of_mem :
    ∀ (l : List DayBucket) (cc : ℕ) (c h : ℚ) (b : DayBucket),
      b ∈ l → ∃ x ∈ cumulate cc c h l, x.toDayBucket = b := by
  intro l
  induction l with
  | nil => intro cc c h b hb; simp at hb
  | cons b0 rest ih =>
    intro cc c h b hb
    rcases List.mem_cons.mp hb with he | hrest
    · subst he
      refine ⟨⟨b, cc + b.completed, round (c + b.cost_incurred),
        ((round ((h + b.hours_logged) * 10) : ℤ) : ℚ) / 10⟩, ?_, rfl⟩
      simp [cumulate]
    · obtain ⟨x, hx, hxb⟩ := ih (cc + b0.completed) (c + b0.cost_incurred)
        (h + b0.hours_logged) b hrest
      exact ⟨x, by simp only [cumulate, List.mem_cons]; exact Or.inr hx, hxb⟩

theorem cumulate_chain :
    ∀ (l : List DayBucket) (cc : ℕ) (c h : ℚ),
      (∀ b ∈ l, 0 ≤ b.cost_incurred ∧ 0 ≤ b.hours_logged) →
      List.Chain' (fun x y : DayOut =>
        x.cumulative_completed ≤ y.cumulative_completed ∧
        x.cumulative_cost ≤ y.cumulative_cost ∧
        x.cumulative_hours ≤ y.cumulative_hours) (cumulate cc c h l) := by
  intro l
  induction l with
  | nil => intro cc c h _; simp [cumulate]
  | cons b rest ih =>
    intro cc c h hn
    simp only [cumulate]
    rw [List.chain'_cons']
    refine ⟨?_, ih _ _ _ (fun b' hb' => hn b' (List.mem_cons_of_mem _ hb'))⟩
    intro y hy
    cases rest with
    | nil => simp [cumulate] at hy
    | cons b2 rest2 =>
      simp only [cumulate, List.head?_cons, Option.mem_def, Option.some.injEq] at hy
      subst hy
      have hb2 := hn b2 (List.mem_cons_of_mem _ (List.mem_cons_self _ _))
      refine ⟨Nat.le_add_right _ _, ?_, ?_⟩
      · exact round_le_round_of_le (by linarith [hb2.1])
      · have hr : round ((h + b.hours_logged) * 10) ≤
            round ((h + b.hours_logged + b2.hours_logged) * 10) := by
          refine round_le_round_of_le ?_
          nlinarith [hb2.2]
        have hc : ((round ((h + b.hours_logged) * 10) : ℤ) : ℚ) ≤
            ((round ((h + b.hours_logged + b2.hours_logged) * 10) : ℤ) : ℚ) := by
          exact_mod_cast hr
        linarith

theorem dailyBreakdown_buckets (today : ℤ) (days : ℕ) (tasks : List TaskDoc)
    (issues : List IssueDoc) (x : DayOut)
    (hx : x ∈ dailyBreakdown today days tasks issues) :
    ∃ d ∈ dailyDates today days, x.toDayBucket = dayBucket today days tasks issues d := by
  rw [dailyBreakdown] at hx
  have h1 := cumulate_toDayBucket_mem _ _ _ _ x hx
  have h2 := List.mem_mergeSort.mp h1
  obtain ⟨d, hd, hdb⟩ := List.mem_map.mp h2
  exact ⟨d, hd, hdb.symm⟩

/-- C8: daily-progress bucketing over a 3-day window in which every task's
and issue's last-update timestamp falls on day 2 (`today - 1`) gives zero
counts, hours and cost for days 1 and 3, the full counts on day 2, and the
three cumulative fields are monotonically non-decreasing along the
chronologically sorted day sequence (given non-negative per-item hours and
costs). -/
theorem dailyProgress_threeDayWindow (today : ℤ) (tasks : List TaskDoc)
    (issues : List IssueDoc)
    (htasks : ∀ t ∈ tasks, t.updatedAt = today - 1)
    (hissues : ∀ i ∈ issues, i.updated_at = today - 1)
    (hhours : ∀ t ∈ tasks, 0 ≤ jsOrQ t.estimated_hours 0)
    (hcosts : ∀ i ∈ issues, 0 ≤ jsOrQ i.actual_cost 0) :
    (∃ x ∈ dailyBreakdown today 3 tasks issues, x.date = today - 1) ∧
    (∀ x ∈ dailyBreakdown today 3 tasks issues, ¬ x.date = today - 1 →
      x.completed = 0 ∧ x.started = 0 ∧ x.delayed = 0 ∧ x.on_track = 0 ∧
      x.cost_incurred = 0 ∧ x.hours_logged = 0) ∧
    (∀ x ∈ dailyBreakdown today 3 tasks issues, x.date = today - 1 →
      x.completed = tasks.countP (fun t => t.status == "done") ∧
      x.started = tasks.countP (fun t => t.status == "in_progress") ∧
      x.delayed = tasks.countP (fun t => pastDeadline today t && !(t.status == "done")) ∧
      x.on_track = tasks.countP (fun t => !(pastDeadline today t) && !(t.status == "done")) ∧
      x.cost_incurred = (issues.map (fun i => jsOrQ i.actual_cost 0)).sum ∧
      x.hours_logged = ((tasks.filter (fun t => t.status == "done")).map
        (fun t => jsOrQ t.estimated_hours 0)).sum) ∧
    List.Chain' (fun x y : DayOut =>
      x.cumulative_completed ≤ y.cumulative_completed ∧
      x.cumulative_cost ≤ y.cumulative_cost ∧
      x.cumulative_hours ≤ y.cumulative_hours)
      (dailyBreakdown today 3 tasks issues) := by
  have hwt : windowTasks today 3 tasks = tasks := by
    rw [windowTasks, List.filter_eq_self]
    intro t ht
    rw [htasks t ht]
    simp only [decide_eq_true_eq]
    omega
  have hwi : windowIssues today 3 issues = issues := by
    rw [windowIssues, List.filter_eq_self]
    intro i hi
    rw [hissues i hi]
    simp only [decide_eq_true_eq]
    omega
  have hfull : dayBucket today 3 tasks issues (today - 1) =
      { date := today - 1,
        completed := tasks.countP (fun t => t.status == "done"),
        started := tasks.countP (fun t => t.status == "in_progress"),
        delayed := tasks.countP (fun t => pastDeadline today t && !(t.status == "done")),
        on_track := tasks.countP (fun t => !(pastDeadline today t) && !(t.status == "done")),
        cost_incurred := (issues.map (fun i => jsOrQ i.actual_cost 0)).sum,
        hours_logged := ((tasks.filter (fun t => t.status == "done")).map
          (fun t => jsOrQ t.estimated_hours 0)).sum } := by
    rw [dayBucket, hwt, hwi,
      foldl_applyTask_all today tasks (emptyBucket (today - 1)) (fun t ht => htasks t ht),
      foldl_applyIssue_all issues _ (fun i hi => hissues i hi)]
    simp [emptyBucket]
  have hzero : ∀ d : ℤ, ¬ d = today - 1 → dayBucket today 3 tasks issues d = emptyBucket d := by
    intro d hd
    rw [dayBucket]
    rw [foldl_applyTask_skip today _ _ (fun t ht => by
      rw [htasks t (List.mem_of_mem_filter ht)]
      intro he
      exact hd (by simpa [emptyBucket] using he.symm))]
    exact foldl_applyIssue_skip _ _ (fun i hi => by
      rw [hissues i (List.mem_of_mem_filter hi)]
      intro he
      exact hd (by simpa [emptyBucket] using he.symm))
  have hdates : dailyDates today 3 = [today - (0 : ℕ), today - (1 : ℕ), today - (2 : ℕ)] := by
    rw [dailyDates, show List.range 3 = [0, 1, 2] from rfl]
    rfl
  refine ⟨?_, ?_, ?_, ?_⟩
  · have hb : dayBucket today 3 tasks issues (today - 1) ∈
        ((dailyDates today 3).map (dayBucket today 3 tasks issues)).mergeSort
          (fun a b => decide (a.date ≤ b.date)) := by
      apply List.mem_mergeSort.mpr
      apply List.mem_map_of_mem
      rw [hdates]
      have : today - 1 = today - ((1 : ℕ) : ℤ) := by norm_num
      rw [this]
      simp
    obtain ⟨x, hx, hxb⟩ := cumulate_exists_of_mem _ 0 0 0 _ hb
    refine ⟨x, by rw [dailyBreakdown]; exact hx, ?_⟩
    show x.toDayBucket.date = today - 1
    rw [hxb, dayBucket_date]
  · intro x hx hneq
    obtain ⟨d, hd, hdb⟩ := dailyBreakdown_buckets today 3 tasks issues x hx
    have hxdate : x.toDayBucket.date = d := by rw [hdb, dayBucket_date]
    have hdneq : ¬ d = today - 1 := fun he => hneq (by rw [show x.date = x.toDayBucket.date from rfl, hxdate, he])
    have hxb : x.toDayBucket = emptyBucket d := by rw [hdb, hzero d hdneq]
    refine ⟨?_, ?_, ?_, ?_, ?_, ?_⟩ <;> simp [hxb, emptyBucket]
  · intro x hx heq
    obtain ⟨d, hd, hdb⟩ := dailyBreakdown_buckets today 3 tasks issues x hx
    have hxdate : x.toDayBucket.date = d := by rw [hdb, dayBucket_date]
    have hd1 : d = today - 1 := by
      rw [show x.date = x.toDayBucket.date from rfl, hxdate] at heq
      exact heq
    have hxb : x.toDayBucket = dayBucket today 3 tasks issues (today - 1) := by
      rw [hdb, hd1]
    refine ⟨?_, ?_, ?_, ?_, ?_, ?_⟩ <;>
      simp [show x.toDayBucket = _ from hxb.trans hfull]
  · rw [dailyBreakdown]
    apply cumulate_chain
    intro b hb
    obtain ⟨d, hd, hdb⟩ := List.mem_map.mp (List.mem_mergeSort.mp hb)
    by_cases hdeq : d = today - 1
    · subst hdeq
      rw [← hdb, hfull]
      constructor
      · apply List.sum_nonneg
        intro q hq
        obtain ⟨i, hi, rfl⟩ := List.mem_map.mp hq
        exact hcosts i hi
      · apply List.sum_nonneg
        intro q hq
        obtain ⟨t, ht, rfl⟩ := List.mem_map.mp hq
        exact hhours t (List.mem_of_mem_filter ht)
    · rw [← hdb, hzero d hdeq]
      simp [emptyBucket]

/-- A done task updated on day 9 (day 2 of the window ending on day 10). -/
def day2Task : TaskDoc :=
  { id := 7, task_id := "T-7", title := "Ship", role_required := none,
    priority := some "high", status := "done", deadline := some 20,
    estimated_hours := some 5, allocated_to := some "u1", synced_to_jira := some true,
    jira_issue_key := some "SCRUM-7", jira_issue_id := some "10007", updatedAt := 9 }

/-- An issue updated on day 9 carrying an actual cost. -/
def day2Issue : IssueDoc := { updated_at := 9, actual_cost := some 100 }

/-- Witness for C8: a concrete 3-day window ending on day 10 with one task
and one issue, both updated on day 9. -/
theorem dailyProgress_threeDayWindow_witness :
    (∃ x ∈ dailyBreakdown 10 3 [day2Task] [day2Issue], x.date = 10 - 1) ∧
    (∀ x ∈ dailyBreakdown 10 3 [day2Task] [day2Issue], ¬ x.date = 10 - 1 →
      x.completed = 0 ∧ x.started = 0 ∧ x.delayed = 0 ∧ x.on_track = 0 ∧
      x.cost_incurred = 0 ∧ x.hours_logged = 0) ∧
    (∀ x ∈ dailyBreakdown 10 3 [day2Task] [day2Issue], x.date = 10 - 1 →
      x.completed = [day2Task].countP (fun t => t.status == "done") ∧
      x.started = [day2Task].countP (fun t => t.status == "in_progress") ∧
      x.delayed = [day2Task].countP (fun t => pastDeadline 10 t && !(t.status == "done")) ∧
      x.on_track = [day2Task].countP (fun t => !(pastDeadline 10 t) && !(t.status == "done")) ∧
      x.cost_incurred = ([day2Issue].map (fun i => jsOrQ i.actual_cost 0)).sum ∧
      x.hours_logged = (([day2Task].filter (fun t => t.status == "done")).map
        (fun t => jsOrQ t.estimated_hours 0)).sum) ∧
    List.Chain' (fun x y : DayOut =>
      x.cumulative_completed ≤ y.cumulative_completed ∧
      x.cumulative_cost ≤ y.cumulative_cost ∧
      x.cumulative_hours ≤ y.cumulative_hours)
      (dailyBreakdown 10 3 [day2Task] [day2Issue]) :=
  dailyProgress_threeDayWindow 10 [day2Task] [day2Issue]
    (by intro t ht; rw [List.mem_singleton] at ht; subst ht; rfl)
    (by intro i hi; rw [List.mem_singleton] at hi; subst hi; rfl)
    (by intro t ht; rw [List.mem_singleton] at ht; subst ht; decide)
    (by intro i hi; rw [List.mem_singleton] at hi; subst hi; decide)
